import Mathlib

/-
Shallow embedding of the query-driven filtering engine `useSearch` from
src/packages/anu-vue/src/composables/useSearch.ts.

The engine is a pure function of the current values of its reactive inputs
(the query string, the data collection, the filterBy configuration and the
strictness flag); reactivity itself (recomputation on change) has no
algorithmic content and is not modelled.  JavaScript values are modelled by
the inductive `JSValue`; numbers are modelled as integers, since the engine
only ever stringifies them.
-/

/-- JavaScript runtime values, as far as the engine inspects them: string,
number and boolean primitives, mapping-like objects (ordered own-property
lists), arrays, and the two nullish values. -/
inductive JSValue where
  | vStr (s : String)
  | vNum (n : Int)
  | vBool (b : Bool)
  | vObj (props : List (String × JSValue))
  | vArr (elems : List JSValue)
  | vNull
  | vUndefined

/-- Does the character list given second occur at the head of the list given
first? Auxiliary for substring containment. -/
def listStartsWith : List Char → List Char → Bool
  | _, [] => true
  | [], _ :: _ => false
  | a :: as, b :: bs => a == b && listStartsWith as bs

/-- Does the character list given second occur contiguously anywhere inside
the list given first? Auxiliary for substring containment. -/
def listContainsSub : List Char → List Char → Bool
  | _, [] => true
  | [], _ :: _ => false
  | a :: t, needle => listStartsWith (a :: t) needle || listContainsSub t needle

/-- Model of `String.prototype.toLocaleLowerCase` in the default locale:
per-character lowercasing. -/
def toLocaleLowerCase (s : String) : String := String.mk (s.data.map Char.toLower)

/-- Model of `String.prototype.includes`: `includes s q` holds iff `q` occurs
in `s` as a contiguous substring (every string includes the empty string). -/
def includes (s q : String) : Bool := listContainsSub s.data q.data

/-- Model of JS `String(n)` and `Number.prototype.toLocaleString` on the
integral numbers of the model (default locale). -/
def jsNumString (n : Int) : String := toString n

/-- Model of JS `String(b)` and `Boolean.prototype.toLocaleString`. -/
def jsBoolString (b : Bool) : String := cond b "true" "false"

/-- Modelled from the spec: the shared emptiness predicate `isEmpty` lives in
the repository's helper module `@/utils/helpers`, which is not among the
sources; per spec section 4.5 a query is empty when it is the empty string or
whitespace-equivalent. -/
def isEmpty (s : String) : Bool := s.data.all Char.isWhitespace

/-- Modelled from the spec: the helper `isObject` of `@/utils/helpers` is not
among the sources; per spec section 4.4 it recognises exactly the mapping-like
structured values — not arrays, not primitives, not nullish values. -/
def isObject : JSValue → Bool
  | JSValue.vObj _ => true
  | _ => false

/-- JS property read `obj[key]` over the ordered own properties of an object;
a missing key reads as `undefined`. -/
def lookupProp : List (String × JSValue) → String → JSValue
  | [], _ => JSValue.vUndefined
  | (k, v) :: rest, key => if k == key then v else lookupProp rest key

/-- One element of a `filterBy` array: a property name, or a named custom
matcher (the source's record with fields `name` and `filterBy`). -/
inductive FilterByElem where
  | prop (name : String)
  | custom (name : String) (matcher : JSValue → String → JSValue → Bool)

/-- The `filterBy` configuration (source type `typeFilterBy`, with `none`
standing for the `undefined` default): absent, a single property name, an
ordered matcher list, or a whole-query predicate. -/
inductive FilterBy where
  | none
  | prop (name : String)
  | list (elems : List FilterByElem)
  | pred (g : String → JSValue → Bool)

/-- JS truthiness of the configuration at the source's `!_filterBy` check:
`undefined` and the empty string are falsy; arrays and functions are truthy. -/
def filterByFalsy : FilterBy → Bool
  | FilterBy.none => true
  | FilterBy.prop s => s == ""
  | _ => false

/-- Is the configuration a whole-query predicate (the source's
`typeof _filterBy === 'function'` test)? -/
def fbIsPred : FilterBy → Bool
  | FilterBy.pred _ => true
  | _ => false

/-- Is the configuration absent or a single property name? (The shapes claimed
by the strictness-narrowing property.) -/
def fbBasic : FilterBy → Bool
  | FilterBy.none => true
  | FilterBy.prop _ => true
  | _ => false

/-- Is the value a string primitive? -/
def isStringItem : JSValue → Bool
  | JSValue.vStr _ => true
  | _ => false

/-- Source `extractStringValueFromObj` (useSearch.ts lines 31-44): read
`obj[key]`; under strict admit only strings, otherwise admit strings, numbers
and booleans via locale-aware stringification; everything else yields null. -/
def extractStringValueFromObj (obj : List (String × JSValue)) (key : String) (strict : Bool) : Option String :=
  match strict, lookupProp obj key with
  | true, JSValue.vStr s => some s
  | false, JSValue.vStr s => some s
  | false, JSValue.vNum n => some (jsNumString n)
  | false, JSValue.vBool b => some (jsBoolString b)
  | _, _ => none

/-- Source `filterObjectViaProperty` (useSearch.ts lines 46-52).  The JS
truthiness test `if (extractedVal)` rejects both null and the empty string,
so an extracted empty string never reaches the substring comparison. -/
def filterObjectViaProperty (obj : List (String × JSValue)) (propertyName q : String) (strict : Bool) : Bool :=
  match extractStringValueFromObj obj propertyName strict with
  | some extractedVal =>
      if extractedVal == "" then false
      else includes (toLocaleLowerCase extractedVal) q
  | none => false

/-- The inline per-property test of the full-object scan used when no
`filterBy` is supplied (useSearch.ts lines 94-105): strict admits string
values only, loose also admits numbers and booleans via `String(val)`. -/
def entriesScan (q : String) (strict : Bool) (val : JSValue) : Bool :=
  match strict, val with
  | _, JSValue.vStr s => includes (toLocaleLowerCase s) q
  | false, JSValue.vNum n => includes (toLocaleLowerCase (jsNumString n)) q
  | false, JSValue.vBool b => includes (toLocaleLowerCase (jsBoolString b)) q
  | _, _ => false

/-- The per-item callback passed to `data.filter` (useSearch.ts lines 60-151).
`searchVal` is the raw query `search.value`; `q` is its case-folded form,
computed once per recomputation.  A predicate configuration is dispatched
first and receives the raw query; string and (under loose) number/boolean
items are tested directly; object items dispatch on the configuration, where
`List.any` mirrors the source's left-to-right, first-success short-circuiting
`Array.prototype.some`; arrays and nullish items never match. -/
def matchItem (searchVal q : String) (fb : FilterBy) (strict : Bool) (item : JSValue) : Bool :=
  match fb with
  | FilterBy.pred g => g searchVal item
  | fb' =>
    match strict, item with
    | _, JSValue.vStr s => includes (toLocaleLowerCase s) q
    | false, JSValue.vNum n => includes (toLocaleLowerCase (jsNumString n)) q
    | false, JSValue.vBool b => includes (toLocaleLowerCase (jsBoolString b)) q
    | st, JSValue.vObj props =>
        if filterByFalsy fb' then
          props.any (fun kv => entriesScan q st kv.2)
        else
          match fb' with
          | FilterBy.prop p => filterObjectViaProperty props p q st
          | FilterBy.list els =>
              els.any (fun k =>
                match k with
                | FilterByElem.prop p => filterObjectViaProperty props p q st
                | FilterByElem.custom nm m =>
                    m (lookupProp props nm) searchVal (JSValue.vObj props))
          | _ => false
    | _, _ => false

/-- Source `useSearch` (useSearch.ts lines 25-158), as a pure function of the
current values of its reactive inputs: the emptiness check short-circuits to
the unmodified data; otherwise the query is folded once and `data.filter`
runs the per-item match. -/
def useSearch (search : String) (data : List JSValue) (fb : FilterBy) (strict : Bool) : List JSValue :=
  if isEmpty search then data
  else data.filter (matchItem search (toLocaleLowerCase search) fb strict)

/-- Spec section 4.3 admission policy, written from the spec's words, applied
to an already-read value: strict admits strings only; loose admits strings,
numbers and booleans via locale-aware stringification; otherwise no value. -/
def specAdmit : Bool → JSValue → Option String
  | true, JSValue.vStr s => some s
  | true, _ => none
  | false, JSValue.vStr s => some s
  | false, JSValue.vNum n => some (jsNumString n)
  | false, JSValue.vBool b => some (jsBoolString b)
  | false, _ => none

/-- Spec section 4.3 property test exactly as the spec states it: if a value
was extracted, the property matches iff its case-folded form contains the
case-folded query; no value never matches. -/
def specPropertyTestClaimed (props : List (String × JSValue)) (key q : String) (strict : Bool) : Bool :=
  match specAdmit strict (lookupProp props key) with
  | some s => includes (toLocaleLowerCase s) q
  | none => false

/-- The amended section 4.3 property test: as claimed, except that an
extracted empty string, like no value, never matches (the source's JS
truthiness guard). -/
def specPropertyTestAmended (props : List (String × JSValue)) (key q : String) (strict : Bool) : Bool :=
  match specAdmit strict (lookupProp props key) with
  | some s => if s == "" then false else includes (toLocaleLowerCase s) q
  | none => false

/-- Spec section 4.4 None-strategy per-pair test, written from the spec's
words: the admission-plus-substring test applied to a property's own value. -/
def specValueTest (q : String) (strict : Bool) (v : JSValue) : Bool :=
  match specAdmit strict v with
  | some s => includes (toLocaleLowerCase s) q
  | none => false

/-- Spec section 4.4 MatcherList element test, written from the spec's words:
a string element applies the section 4.3 property test to that property; a
named matcher element is evaluated on the property's value, the raw query and
the whole item, its boolean trusted as-is. -/
def specMatcherElem (searchVal q : String) (strict : Bool) (props : List (String × JSValue)) : FilterByElem → Bool
  | FilterByElem.prop p => specPropertyTestClaimed props p q strict
  | FilterByElem.custom nm m => m (lookupProp props nm) searchVal (JSValue.vObj props)

/-- The source extraction equals the spec section 4.3 admission policy read
off the property: `extractStringValueFromObj` is `specAdmit` after the
property read. -/
lemma extract_eq_specAdmit (obj : List (String × JSValue)) (key : String) (strict : Bool) :
    extractStringValueFromObj obj key strict = specAdmit strict (lookupProp obj key) := by
  cases strict <;> cases h : lookupProp obj key <;>
    simp [extractStringValueFromObj, specAdmit, h]

/-- A query that the emptiness predicate rejects has at least one character. -/
lemma data_ne_nil_of_not_empty (s : String) (h : isEmpty s = false) : s.data ≠ [] := by
  intro hd
  rw [isEmpty, hd] at h
  simp at h

/-- Case folding of a non-empty (per the emptiness predicate) query is a
non-empty string. -/
lemma toLocaleLowerCase_ne_empty (s : String) (h : isEmpty s = false) :
    toLocaleLowerCase s ≠ "" := by
  intro he
  apply data_ne_nil_of_not_empty s h
  have := congrArg String.data he
  simpa [toLocaleLowerCase] using this

/-- The empty string includes no non-empty string. -/
lemma includes_empty_left (q : String) (h : q ≠ "") : includes "" q = false := by
  unfold includes
  cases hq : q.data with
  | nil =>
    exact absurd (by cases q; simp_all) h
  | cons c cs => rfl

/-- For a non-empty query the source property test agrees with the spec
section 4.3 test as literally claimed: the truthiness guard only diverges on
an extracted empty string, which cannot contain a non-empty query anyway. -/
lemma filterObjectViaProperty_eq_claimed (props : List (String × JSValue))
    (p q : String) (strict : Bool) (hq : q ≠ "") :
    filterObjectViaProperty props p q strict = specPropertyTestClaimed props p q strict := by
  unfold filterObjectViaProperty specPropertyTestClaimed
  rw [extract_eq_specAdmit]
  cases specAdmit strict (lookupProp props p) with
  | none => rfl
  | some s =>
    by_cases hs : s = ""
    · subst hs
      simp [includes_empty_left q hq, toLocaleLowerCase]
    · simp [hs]

/-- The inline full-scan per-property test is exactly the spec section 4.3
admission-plus-substring test on the property's value. -/
lemma entriesScan_eq_specValueTest (q : String) (strict : Bool) (v : JSValue) :
    entriesScan q strict v = specValueTest q strict v := by
  cases strict <;> cases v <;> rfl

example : useSearch "an" [JSValue.vStr "Apple", JSValue.vStr "banana", JSValue.vNum 42, JSValue.vBool true] FilterBy.none false = [JSValue.vStr "banana"] := rfl

example : useSearch "an" [JSValue.vObj [("name", JSValue.vStr "Ann")], JSValue.vObj [("name", JSValue.vStr "Bob")]] (FilterBy.prop "name") false = [JSValue.vObj [("name", JSValue.vStr "Ann")]] := rfl

example : useSearch "found" [JSValue.vObj [("a", JSValue.vStr "x"), ("b", JSValue.vStr "found-it")]] FilterBy.none false = [JSValue.vObj [("a", JSValue.vStr "x"), ("b", JSValue.vStr "found-it")]] := rfl

example : useSearch "1" [JSValue.vObj [("a", JSValue.vNum 1)]] (FilterBy.prop "a") true = [] := rfl

/-- C1: Empty-query identity — for every collection, strategy and strictness
flag, a query the shared emptiness predicate accepts (empty or
whitespace-equivalent) short-circuits `useSearch` to the entire unmodified
input, in order, without any strategy being evaluated (a GlobalPredicate
included). -/
theorem c1_empty_query_identity (search : String) (data : List JSValue)
    (fb : FilterBy) (strict : Bool) (h : isEmpty search = true) :
    useSearch search data fb strict = data := by
  simp [useSearch, h]

theorem c1_empty_query_identity_witness :
    isEmpty " " = true ∧
      useSearch " " [JSValue.vStr "a"] (FilterBy.pred (fun _ _ => false)) true
        = [JSValue.vStr "a"] :=
  ⟨rfl, c1_empty_query_identity " " [JSValue.vStr "a"]
    (FilterBy.pred (fun _ _ => false)) true rfl⟩

/-- C2 counterexample: with the empty query, a GlobalPredicate that rejects
every item is bypassed by the emptiness short-circuit, so the result is the
whole input rather than the set of items the predicate accepts (which is
empty). -/
theorem c2_counterexample :
    useSearch "" [JSValue.vStr "a"] (FilterBy.pred (fun _ _ => false)) false
        = [JSValue.vStr "a"] ∧
      List.filter (fun item => (fun (_ : String) (_ : JSValue) => false) "" item)
        [JSValue.vStr "a"] = ([] : List JSValue) :=
  ⟨rfl, rfl⟩

/-- C2 amended: for every query that the shared emptiness predicate rejects,
when the configuration is a whole-query predicate `g`, the result is exactly
the items for which `g` holds, regardless of strictness, and `g` receives the
raw, non-case-folded query together with the raw item. -/
theorem c2_global_predicate_override (search : String) (data : List JSValue)
    (g : String → JSValue → Bool) (strict : Bool) (h : isEmpty search = false) :
    useSearch search data (FilterBy.pred g) strict
      = data.filter (fun item => g search item) := by
  simp [useSearch, h]
  rfl

theorem c2_global_predicate_override_witness :
    isEmpty "x" = false ∧
      useSearch "x" [JSValue.vStr "a", JSValue.vNum 3]
          (FilterBy.pred (fun _ item => isStringItem item)) false
        = List.filter (fun item => (fun (_ : String) (it : JSValue) => isStringItem it) "x" item)
            [JSValue.vStr "a", JSValue.vNum 3] :=
  ⟨rfl, c2_global_predicate_override "x" [JSValue.vStr "a", JSValue.vNum 3]
    (fun _ item => isStringItem item) false rfl⟩

/-- C3: Array exclusion — for every non-empty query and every configuration
other than a whole-query predicate, a top-level array item never matches and
never appears in the result (the embedding is total, so no error is possible). -/
theorem c3_array_exclusion (search : String) (data : List JSValue)
    (fb : FilterBy) (strict : Bool) (elems : List JSValue)
    (h : isEmpty search = false) (hfb : fbIsPred fb = false) :
    matchItem search (toLocaleLowerCase search) fb strict (JSValue.vArr elems) = false ∧
      JSValue.vArr elems ∉ useSearch search data fb strict := by
  have hm : matchItem search (toLocaleLowerCase search) fb strict (JSValue.vArr elems) = false := by
    cases fb <;> cases strict <;> simp_all [matchItem, fbIsPred]
  refine ⟨hm, ?_⟩
  intro hmem
  rw [useSearch] at hmem
  rw [if_neg (by simp [h])] at hmem
  rw [List.mem_filter] at hmem
  rw [hm] at hmem
  exact absurd hmem.2 (by simp)

theorem c3_array_exclusion_witness :
    isEmpty "a" = false ∧ fbIsPred FilterBy.none = false ∧
      JSValue.vArr [JSValue.vStr "a"]
        ∉ useSearch "a" [JSValue.vArr [JSValue.vStr "a"], JSValue.vStr "ab"] FilterBy.none false :=
  ⟨rfl, rfl,
    (c3_array_exclusion "a" [JSValue.vArr [JSValue.vStr "a"], JSValue.vStr "ab"]
      FilterBy.none false [JSValue.vStr "a"] rfl rfl).2⟩

/-- C4 counterexample: on a structured item whose property is the empty
string, loose extraction yields the empty string, whose case-folded form does
contain the case-folded empty query, yet the source property test returns
false — the claimed "matches iff contains" biconditional fails there. -/
theorem c4_counterexample :
    extractStringValueFromObj [("a", JSValue.vStr "")] "a" false = some "" ∧
      includes (toLocaleLowerCase "") (toLocaleLowerCase "") = true ∧
      filterObjectViaProperty [("a", JSValue.vStr "")] "a" (toLocaleLowerCase "") false = false :=
  ⟨rfl, rfl, rfl⟩

/-- C4 amended: extraction follows the strict/loose admission policy exactly
(strict admits strings only; loose admits strings, numbers and booleans via
locale-aware stringification; missing or inadmissible values yield no value),
and the property test matches iff a non-empty value was extracted whose
case-folded form contains the case-folded query — an extracted empty string,
like no value, never matches, and nothing ever raises. -/
theorem c4_extraction_contract (props : List (String × JSValue))
    (key q : String) (strict : Bool) :
    extractStringValueFromObj props key strict = specAdmit strict (lookupProp props key) ∧
      filterObjectViaProperty props key q strict = specPropertyTestAmended props key q strict := by
  refine ⟨extract_eq_specAdmit props key strict, ?_⟩
  unfold filterObjectViaProperty specPropertyTestAmended
  rw [extract_eq_specAdmit]

/-- C5: None-strategy full-object scan — with a non-empty query and no
configuration, a structured item matches iff the spec section 4.3
admission-plus-substring test succeeds on at least one of its own
(property, value) pairs. -/
theorem c5_none_strategy_full_scan (search : String) (strict : Bool)
    (props : List (String × JSValue)) (_h : isEmpty search = false) :
    matchItem search (toLocaleLowerCase search) FilterBy.none strict (JSValue.vObj props)
      = props.any (fun kv => specValueTest (toLocaleLowerCase search) strict kv.2) := by
  cases strict <;>
    simp [matchItem, filterByFalsy, entriesScan_eq_specValueTest]

theorem c5_none_strategy_full_scan_witness :
    isEmpty "found" = false ∧
      matchItem "found" (toLocaleLowerCase "found") FilterBy.none false
          (JSValue.vObj [("a", JSValue.vStr "x"), ("b", JSValue.vStr "found-it")])
        = List.any [("a", JSValue.vStr "x"), ("b", JSValue.vStr "found-it")]
            (fun kv => specValueTest (toLocaleLowerCase "found") false kv.2) :=
  ⟨rfl, c5_none_strategy_full_scan "found" false
    [("a", JSValue.vStr "x"), ("b", JSValue.vStr "found-it")] rfl⟩

/-- C6: MatcherList dispatch — with a non-empty query, a structured item under
a list configuration matches iff some element of the list succeeds, the list
being traversed in order with `List.any`'s left-to-right short-circuit
(mirroring `Array.prototype.some`): a string element applies the spec section
4.3 property test, and a named custom matcher is evaluated on the property's
value, the raw non-folded query and the whole item, its boolean trusted
as-is. -/
theorem c6_matcher_list_dispatch (search : String) (strict : Bool)
    (props : List (String × JSValue)) (els : List FilterByElem)
    (h : isEmpty search = false) :
    matchItem search (toLocaleLowerCase search) (FilterBy.list els) strict (JSValue.vObj props)
      = els.any (specMatcherElem search (toLocaleLowerCase search) strict props) := by
  have hq : toLocaleLowerCase search ≠ "" := toLocaleLowerCase_ne_empty search h
  have hfun : (fun k =>
      match k with
      | FilterByElem.prop p => filterObjectViaProperty props p (toLocaleLowerCase search) strict
      | FilterByElem.custom nm m =>
          m (lookupProp props nm) search (JSValue.vObj props))
      = specMatcherElem search (toLocaleLowerCase search) strict props := by
    funext k
    cases k with
    | prop p =>
      simp [specMatcherElem,
        filterObjectViaProperty_eq_claimed props p (toLocaleLowerCase search) strict hq]
    | custom nm m => rfl
  cases strict <;> simp [matchItem, filterByFalsy] <;> rw [← hfun]

theorem c6_matcher_list_dispatch_witness :
    isEmpty "an" = false ∧
      matchItem "an" (toLocaleLowerCase "an")
          (FilterBy.list [FilterByElem.prop "name",
            FilterByElem.custom "age" (fun v _ _ => isStringItem v)]) false
          (JSValue.vObj [("name", JSValue.vStr "Ann"), ("age", JSValue.vNum 7)])
        = List.any [FilterByElem.prop "name",
            FilterByElem.custom "age" (fun v _ _ => isStringItem v)]
            (specMatcherElem "an" (toLocaleLowerCase "an") false
              [("name", JSValue.vStr "Ann"), ("age", JSValue.vNum 7)]) :=
  ⟨rfl, c6_matcher_list_dispatch "an" false
    [("name", JSValue.vStr "Ann"), ("age", JSValue.vNum 7)]
    [FilterByElem.prop "name", FilterByElem.custom "age" (fun v _ _ => isStringItem v)] rfl⟩

/-- Strict extraction succeeding forces the property to hold a string, and
loose extraction then succeeds with the same value. -/
lemma extract_strict_to_loose (obj : List (String × JSValue)) (key : String)
    (v : String) (h : extractStringValueFromObj obj key true = some v) :
    extractStringValueFromObj obj key false = some v := by
  rw [extract_eq_specAdmit] at h ⊢
  cases hl : lookupProp obj key <;> rw [hl] at h <;> simp_all [specAdmit]

/-- The source property test is monotone from strict to loose mode. -/
lemma filterObjectViaProperty_mono (props : List (String × JSValue))
    (p q : String) (h : filterObjectViaProperty props p q true = true) :
    filterObjectViaProperty props p q false = true := by
  unfold filterObjectViaProperty at h ⊢
  cases he : extractStringValueFromObj props p true with
  | none => rw [he] at h; exact absurd h (by simp)
  | some v => rw [he] at h; rw [extract_strict_to_loose props p v he]; exact h

/-- The full-scan per-property test is monotone from strict to loose mode. -/
lemma entriesScan_mono (q : String) (v : JSValue)
    (h : entriesScan q true v = true) : entriesScan q false v = true := by
  cases v <;> simp_all [entriesScan]

/-- The per-item match under an absent or single-property configuration is
monotone from strict to loose mode. -/
lemma matchItem_mono (searchVal q : String) (fb : FilterBy) (item : JSValue)
    (hb : fbBasic fb = true)
    (h : matchItem searchVal q fb true item = true) :
    matchItem searchVal q fb false item = true := by
  cases fb with
  | list els => exact absurd hb (by simp [fbBasic])
  | pred g => exact absurd hb (by simp [fbBasic])
  | none =>
    cases item <;> simp_all [matchItem, filterByFalsy]
    obtain ⟨a, b, hab, hE⟩ := h
    exact ⟨a, b, hab, entriesScan_mono q b hE⟩
  | prop p =>
    cases item <;> simp_all [matchItem, filterByFalsy]
    by_cases hp : p = ""
    · simp only [hp, if_pos] at h ⊢
      obtain ⟨a, b, hab, hE⟩ := h
      exact ⟨a, b, hab, entriesScan_mono q b hE⟩
    · simp only [hp, if_neg, if_false] at h ⊢
      exact filterObjectViaProperty_mono _ p q h

/-- C7: Strictness narrowing — when the configuration is absent or a single
property name, every item returned under strict mode is also returned under
loose mode, for every collection and query. -/
theorem c7_strictness_narrowing (search : String) (data : List JSValue)
    (fb : FilterBy) (hb : fbBasic fb = true) (x : JSValue)
    (hx : x ∈ useSearch search data fb true) :
    x ∈ useSearch search data fb false := by
  unfold useSearch at hx ⊢
  cases hE : isEmpty search with
  | true => rw [hE] at hx; simpa using hx
  | false =>
    rw [hE] at hx
    simp only [Bool.false_eq_true, if_false, List.mem_filter] at hx ⊢
    exact ⟨hx.1, matchItem_mono search (toLocaleLowerCase search) fb x hb hx.2⟩

theorem c7_strictness_narrowing_witness :
    fbBasic FilterBy.none = true ∧
      JSValue.vStr "abc" ∈ useSearch "a" [JSValue.vStr "abc"] FilterBy.none false :=
  ⟨rfl, c7_strictness_narrowing "a" [JSValue.vStr "abc"] FilterBy.none rfl
    (JSValue.vStr "abc") (List.Mem.head [])⟩

/-- C8: Case insensitivity — on a collection of strings, filtering with the
query "ABC" and with the query "abc" yields the same result (case folding is
locale-aware lowercasing, applied once to the query and to each candidate at
comparison time). -/
theorem c8_case_insensitivity (data : List JSValue) (strict : Bool)
    (hs : ∀ x ∈ data, isStringItem x = true) :
    useSearch "ABC" data FilterBy.none strict = useSearch "abc" data FilterBy.none strict := by
  have key : ∀ x ∈ data,
      matchItem "ABC" (toLocaleLowerCase "ABC") FilterBy.none strict x
        = matchItem "abc" (toLocaleLowerCase "abc") FilterBy.none strict x := by
    intro x hx
    have hsx := hs x hx
    cases strict <;> cases x <;> simp [isStringItem] at hsx <;> rfl
  show data.filter (matchItem "ABC" (toLocaleLowerCase "ABC") FilterBy.none strict)
      = data.filter (matchItem "abc" (toLocaleLowerCase "abc") FilterBy.none strict)
  exact List.filter_congr key

theorem c8_case_insensitivity_witness :
    (∀ x ∈ [JSValue.vStr "Apple", JSValue.vStr "bAnCo"], isStringItem x = true) ∧
      useSearch "ABC" [JSValue.vStr "Apple", JSValue.vStr "bAnCo"] FilterBy.none false
        = useSearch "abc" [JSValue.vStr "Apple", JSValue.vStr "bAnCo"] FilterBy.none false :=
  ⟨by decide, c8_case_insensitivity [JSValue.vStr "Apple", JSValue.vStr "bAnCo"] false
    (by decide)⟩

/-- C9: Subsequence and stability — for every non-empty query, configuration
and strictness flag, the result is a subsequence of the input: every returned
item occurs in the input, relative order is preserved, nothing is synthesized,
and duplicates survive independently (`List.Sublist` states exactly this). -/
theorem c9_subsequence (search : String) (data : List JSValue)
    (fb : FilterBy) (strict : Bool) (h : isEmpty search = false) :
    List.Sublist (useSearch search data fb strict) data := by
  unfold useSearch
  rw [if_neg (by simp [h])]
  exact List.filter_sublist data

theorem c9_subsequence_witness :
    isEmpty "b" = false ∧
      List.Sublist
        (useSearch "b" [JSValue.vStr "abc", JSValue.vNum 7] FilterBy.none false)
        [JSValue.vStr "abc", JSValue.vNum 7] :=
  ⟨rfl, c9_subsequence "b" [JSValue.vStr "abc", JSValue.vNum 7] FilterBy.none false rfl⟩

/-- C10: Implicit empty-string edge — whenever the named property holds the
empty string, the property-based test returns false, for every query (the
empty query included) and both strictness modes: the JS truthiness guard
treats an extracted empty string exactly like no value. -/
theorem c10_empty_string_property_never_matches (props : List (String × JSValue))
    (key q : String) (strict : Bool)
    (h : lookupProp props key = JSValue.vStr "") :
    filterObjectViaProperty props key q strict = false := by
  unfold filterObjectViaProperty extractStringValueFromObj
  rw [h]
  cases strict <;> rfl

theorem c10_empty_string_property_never_matches_witness :
    lookupProp [("a", JSValue.vStr "")] "a" = JSValue.vStr "" ∧
      filterObjectViaProperty [("a", JSValue.vStr "")] "a" "" false = false :=
  ⟨rfl, c10_empty_string_property_never_matches [("a", JSValue.vStr "")] "a" "" false rfl⟩
